import Mathlib

/-!
Shallow embedding of `src/filter.py` (ROS2BagFilter): the filtering/copy
engine `process_bag`, the input validation `validate_inputs` /
`start_processing`, and the data they act on.  Records, events and writer
actions are modelled as inductive data; the worker's interaction with the
storage layer (reader open, writer open, topic creation, per-record read
and write) is modelled by explicit failure-injection parameters so that
the `try/except` structure of the Python code becomes a total function.
Timestamps are integers (nanoseconds); progress fractions are rationals
standing for the Python floats (the arithmetic involved — subtraction,
division, multiplication by 100, min/max — is exact on the values the
program computes, so rationals are a faithful model of the float
expressions here in all the claims considered).
-/

/-- Payload of one message, an opaque byte string. -/
abbrev Payload := List Nat

/-- One record of the bag: `(topic, data, timestamp)` as yielded by
`reader.read_next()` in `process_bag`. -/
structure Record where
  topic : String
  data : Payload
  timestamp : Int
deriving DecidableEq, Repr

/-- The immutable parameters of one run: the selected topic names and the
absolute start/end timestamps in nanoseconds (`selected_topics`,
`start_ns`, `end_ns` in `process_bag`). -/
structure Selection where
  topics : List String
  start_ns : Int
  end_ns : Int
deriving DecidableEq, Repr

/-- `total_duration = end_ns - start_ns` (filter.py line 351). -/
def Selection.total_duration (sel : Selection) : Int :=
  sel.end_ns - sel.start_ns

/-- The write guard of the loop: `start_ns <= timestamp <= end_ns`
(filter.py line 387). -/
def Selection.inWindow (sel : Selection) (t : Int) : Bool :=
  decide (sel.start_ns ≤ t ∧ t ≤ sel.end_ns)

/-- An item placed on `progress_queue`: a progress fraction (a float in
the source), the `"SUCCESS"` marker, or an `("ERROR", msg)` pair. -/
inductive Event where
  | progress (fraction : ℚ)
  | success
  | error (msg : String)
deriving DecidableEq, Repr

/-- Terminal events are `Success` and `Failure`; progress updates are not
terminal. -/
def Event.isTerminal : Event → Bool
  | .progress _ => false
  | .success => true
  | .error _ => true

/-- One operation issued to the `SequentialWriter`: a topic declaration
(`writer.create_topic`, lines 369-373) or a record write (`writer.write`,
line 388). -/
inductive WriterAction where
  | createTopic (name ty serialization_format : String)
  | write (topic : String) (data : Payload) (timestamp : Int)
deriving DecidableEq, Repr

/-- Whether a writer action is a record write. -/
def WriterAction.isWrite : WriterAction → Bool
  | .createTopic _ _ _ => false
  | .write _ _ _ => true

/-- The per-record progress fraction (filter.py lines 379-384):
`((timestamp - start_ns) / total_duration) * 100` clamped by
`max(0, min(progress, 100))` when `total_duration > 0`, else `100.0`. -/
def progressUpdate (sel : Selection) (timestamp : Int) : ℚ :=
  if sel.total_duration > 0 then
    max 0 (min (((timestamp - sel.start_ns : ℤ) : ℚ) / ((sel.total_duration : ℤ) : ℚ) * 100) 100)
  else 100

/-- The progress event enqueued for one record. -/
def progressEvent (sel : Selection) (r : Record) : Event :=
  Event.progress (progressUpdate sel r.timestamp)

/-- The write action issued for one in-window record: the record is
written verbatim (`writer.write(topic, data, timestamp)`, line 388). -/
def writeAction (r : Record) : WriterAction :=
  WriterAction.write r.topic r.data r.timestamp

/-- The streaming loop of `process_bag` (filter.py lines 375-388).
`alive i` is the value of `self.processing` read at the top of iteration
`i` (the loop condition `while reader.has_next() and self.processing`);
`wfail i` injects an `IOError` raised by `writer.write` at iteration `i`;
the source stream is a list of `read_next` outcomes, where `.error m`
means `read_next` raised with message `m`.  Returns the progress events
enqueued, the writer actions issued, and the exception (if any) that
escapes the loop into the `except` handler. -/
def runLoop (sel : Selection) (alive : Nat → Bool) (wfail : Nat → Option String) :
    List (Except String Record) → Nat → List Event × List WriterAction × Option String
  | [], _ => ([], [], none)
  | item :: rest, i =>
    if alive i then
      match item with
      | .error m => ([], [], some m)
      | .ok r =>
        if sel.inWindow r.timestamp then
          match wfail i with
          | some m => ([progressEvent sel r], [], some m)
          | none =>
            let out := runLoop sel alive wfail rest (i + 1)
            (progressEvent sel r :: out.1, writeAction r :: out.2.1, out.2.2)
        else
          let out := runLoop sel alive wfail rest (i + 1)
          (progressEvent sel r :: out.1, out.2.1, out.2.2)
    else ([], [], none)

/-- The topic-declaration phase (filter.py lines 366-373): for each
selected topic, look up its recorded type in `available_topics` (a
missing key raises, modelled as `.error`), and declare it on the writer
with serialization format `"cdr"`. -/
def createTopics (available_topics : String → Option String) :
    List String → Except String (List WriterAction)
  | [] => .ok []
  | t :: ts =>
    match available_topics t with
    | none => .error ("KeyError: " ++ t)
    | some ty =>
      match createTopics available_topics ts with
      | .error m => .error m
      | .ok acts => .ok (WriterAction.createTopic t ty "cdr" :: acts)

/-- The environment one run of `process_bag` executes in: injected open
errors for the reader and the writer, the `available_topics` map, the
stream the reader yields (already push-down filtered, or not, by
`set_filter`), the injected per-iteration write failures, and the
externally readable `processing` flag. -/
structure RunInput where
  readerOpenErr : Option String
  writerOpenErr : Option String
  available_topics : String → Option String
  src : List (Except String Record)
  wfail : Nat → Option String
  alive : Nat → Bool

/-- `process_bag` (filter.py lines 347-400): reader open, writer open,
topic declarations, streaming loop, then the unconditional
`put(100.0); put("SUCCESS")` — and the `except` handler that enqueues
`put(0.0); put(("ERROR", str(e)))` on any exception.  Returns the queue
contents in enqueue order and the writer actions issued. -/
def process_bag (sel : Selection) (inp : RunInput) : List Event × List WriterAction :=
  match inp.readerOpenErr with
  | some m => ([Event.progress 0, Event.error m], [])
  | none =>
    match inp.writerOpenErr with
    | some m => ([Event.progress 0, Event.error m], [])
    | none =>
      match createTopics inp.available_topics sel.topics with
      | .error m => ([Event.progress 0, Event.error m], [])
      | .ok creates =>
        let out := runLoop sel inp.alive inp.wfail inp.src 0
        match out.2.2 with
        | some m => (out.1 ++ [Event.progress 0, Event.error m], creates ++ out.2.1)
        | none => (out.1 ++ [Event.progress 100, Event.success], creates ++ out.2.1)

/-- The exception that reaches the `except` handler of `process_bag`
(`none` when the `try` block completes). -/
def runExc (sel : Selection) (inp : RunInput) : Option String :=
  match inp.readerOpenErr with
  | some m => some m
  | none =>
    match inp.writerOpenErr with
    | some m => some m
    | none =>
      match createTopics inp.available_topics sel.topics with
      | .error m => some m
      | .ok _ => (runLoop sel inp.alive inp.wfail inp.src 0).2.2

/-- The push-down filter `reader.set_filter(StorageFilter(topics=selected_topics))`
(filter.py line 358): the reader yields exactly the source records whose
topic is among the selected ones, in source order. -/
def set_filter (topics : List String) (source : List Record) : List Record :=
  source.filter (fun r => topics.contains r.topic)

/-- A run environment with no injected failures and the `processing` flag
never cleared: the source is exhausted without an error. -/
def okInput (available_topics : String → Option String) (records : List Record) : RunInput :=
  { readerOpenErr := none
    writerOpenErr := none
    available_topics := available_topics
    src := records.map Except.ok
    wfail := fun _ => none
    alive := fun _ => true }

/-- The GUI state that `validate_inputs` / `start_processing` read
(filter.py lines 325-342 and 419-440): the input/output path entries, the
listbox selection, the parsed contents of the start/end time entries
(`none` models a `ValueError` from `float(...)`), the loaded duration in
seconds, and the loaded topic names. -/
structure GuiState where
  input_path : String
  output_path : String
  selected_indices : List Nat
  start_entry : Option ℚ
  end_entry : Option ℚ
  duration : ℚ
  topic_names : List String

/-- `validate_inputs` (filter.py lines 419-440): reject when the input
path or the output path is empty, when no topics are selected, when a
time entry fails to parse, or when `start < 0 or end < start or end >
duration`. -/
def validate_inputs (g : GuiState) : Bool :=
  if g.input_path = "" then false
  else if g.output_path = "" then false
  else if g.selected_indices = [] then false
  else
    match g.start_entry, g.end_entry with
    | some s, some e =>
      if s < 0 ∨ e < s ∨ e > g.duration then false else true
    | _, _ => false

/-- `start_processing` (filter.py lines 325-342): if `validate_inputs`
fails, return immediately (`none`): the worker thread is never spawned,
so no reader or writer is opened and no destination content is created.
Otherwise spawn `process_bag` with the selected topic names and the
parsed start/end times. -/
def start_processing (g : GuiState) : Option (List String × ℚ × ℚ) :=
  if validate_inputs g then
    match g.start_entry, g.end_entry with
    | some s, some e => some (g.selected_indices.filterMap (fun i => g.topic_names[i]?), s, e)
    | _, _ => none
  else none

/-! ### Helper lemmas about the streaming loop -/

/-- On a failure-free, never-cancelled stream the loop enqueues one
progress event per record in order, writes exactly the in-window records
in order, and raises no exception. -/
theorem runLoop_ok (sel : Selection) (records : List Record) (i : Nat) :
    runLoop sel (fun _ => true) (fun _ => none) (records.map Except.ok) i =
      (records.map (progressEvent sel),
       (records.filter (fun r => sel.inWindow r.timestamp)).map writeAction,
       none) := by
  induction records generalizing i with
  | nil => rfl
  | cons r rs ih =>
    simp only [List.map_cons, runLoop, if_true, List.filter_cons]
    by_cases hw : sel.inWindow r.timestamp
    · simp [hw, ih (i + 1)]
    · simp [hw, ih (i + 1)]

/-- Every event the loop enqueues is a progress update, never a terminal
event. -/
theorem runLoop_events_not_terminal (sel : Selection) (alive : Nat → Bool)
    (wfail : Nat → Option String) (src : List (Except String Record)) (i : Nat) :
    ∀ e ∈ (runLoop sel alive wfail src i).1, e.isTerminal = false := by
  induction src generalizing i with
  | nil => intro e he; simp [runLoop] at he
  | cons item rest ih =>
    intro e he
    simp only [runLoop] at he
    by_cases ha : alive i
    · simp only [ha, if_true] at he
      match item with
      | .error m => simp at he
      | .ok r =>
        by_cases hw : sel.inWindow r.timestamp
        · simp only [hw, if_true] at he
          match hwf : wfail i with
          | some m =>
            rw [hwf] at he
            simp at he
            subst he
            rfl
          | none =>
            rw [hwf] at he
            simp only [List.mem_cons] at he
            rcases he with h | h
            · subst h; rfl
            · exact ih (i + 1) e h
        · simp only [hw, if_false, Bool.false_eq_true, List.mem_cons] at he
          rcases he with h | h
          · subst h; rfl
          · exact ih (i + 1) e h
    · simp only [ha, if_false, Bool.false_eq_true] at he
      simp at he

/-- When `available_topics` covers every selected topic, the declaration
phase succeeds and declares exactly the selected topics, in order, each
with its recorded type and serialization format `"cdr"`. -/
theorem createTopics_ok (avail : String → Option String) (ts : List String)
    (h : ∀ t ∈ ts, avail t ≠ none) :
    createTopics avail ts =
      Except.ok (ts.map (fun t => WriterAction.createTopic t ((avail t).getD "") "cdr")) := by
  induction ts with
  | nil => rfl
  | cons t ts ih =>
    have ht : avail t ≠ none := h t (List.mem_cons_self t ts)
    match hv : avail t with
    | none => exact absurd hv ht
    | some ty =>
      have := ih (fun u hu => h u (List.mem_cons_of_mem t hu))
      simp [createTopics, hv, this]

/-- The full happy-path run: no open error, all selected topics known, no
read/write failure, `processing` never cleared.  The queue receives the
per-record progress events, then `Progress(100)`, then `Success`; the
writer receives the topic declarations followed by the in-window record
writes. -/
theorem process_bag_ok (sel : Selection) (avail : String → Option String)
    (records : List Record) (h : ∀ t ∈ sel.topics, avail t ≠ none) :
    process_bag sel (okInput avail records) =
      (records.map (progressEvent sel) ++ [Event.progress 100, Event.success],
       sel.topics.map (fun t => WriterAction.createTopic t ((avail t).getD "") "cdr")
         ++ (records.filter (fun r => sel.inWindow r.timestamp)).map writeAction) := by
  simp [process_bag, okInput, createTopics_ok avail sel.topics h, runLoop_ok]

/-! ### Concrete fixtures used by the witnesses and counterexamples -/

/-- A two-topic `available_topics` map: topic `"A"` of type `"T1"`,
topic `"B"` of type `"T2"`. -/
def availAB : String → Option String :=
  fun t => if t = "A" then some "T1" else if t = "B" then some "T2" else none

/-- Ten records alternating between topics `"A"` and `"B"`, with
timestamps `0..9` (the scenario of spec §8). -/
def src10 : List Record :=
  (List.range 10).map (fun i => ⟨if i % 2 = 0 then "A" else "B", [i], (i : Int)⟩)

/-- A run over the push-down-filtered ten-record source (filter.py line
358) in which `processing` is cleared externally after 3 iterations and
no failure occurs. -/
def cancelFilteredC1 : RunInput :=
  { readerOpenErr := none
    writerOpenErr := none
    available_topics := availAB
    src := (set_filter ["A"] src10).map Except.ok
    wfail := fun _ => none
    alive := fun i => decide (i < 3) }

/-- C1 counterexample: ending with the `Success` terminal event does NOT
imply the destination is the full channel-and-window filter of the
source.  With selection `{A}`, window `[0, 9]`, over the ten alternating
records, a run cancelled after 3 iterations still ends with `Success`
(the unconditional `put(100.0); put("SUCCESS")`, filter.py lines
390-393), yet its writes are only a proper prefix of the in-window
selected records (timestamps `0, 2, 4` instead of `0, 2, 4, 6, 8`). -/
theorem C1_cancelled_success_counterexample :
    (process_bag ⟨["A"], 0, 9⟩ cancelFilteredC1).1.getLast? = some Event.success ∧
    (process_bag ⟨["A"], 0, 9⟩ cancelFilteredC1).2.filter WriterAction.isWrite ≠
      (src10.filter
        (fun r => (["A"] : List String).contains r.topic &&
          (Selection.mk ["A"] 0 9).inWindow r.timestamp)).map writeAction := by
  decide

/-- C1 amended: for every valid selection and every source record
sequence, after a run in which the source was exhausted with no error and
no cancellation (`processing` never cleared) — such a run ends with the
`Success` terminal event — the destination contains exactly the source
records whose channel is in `selection.channels` and whose timestamp lies
in `[start_ns, end_ns]`, in source order.  (Ending with `Success` alone
is not sufficient: a cancelled run also ends with `Success` while writing
only a prefix.)  The reader stream is the push-down-filtered source
(filter.py line 358); the run ends in `Success` (last event) and the
record writes issued equal the channel-and-window filter of the source,
order preserved. -/
theorem C1_destination_exact (sel : Selection) (avail : String → Option String)
    (source : List Record)
    (hne : sel.topics ≠ []) (h0 : 0 ≤ sel.start_ns) (hse : sel.start_ns ≤ sel.end_ns)
    (h : ∀ t ∈ sel.topics, avail t ≠ none) :
    (process_bag sel (okInput avail (set_filter sel.topics source))).1.getLast? =
        some Event.success ∧
    (process_bag sel (okInput avail (set_filter sel.topics source))).2.filter
        WriterAction.isWrite =
      (source.filter
        (fun r => sel.topics.contains r.topic && sel.inWindow r.timestamp)).map
        writeAction := by
  rw [process_bag_ok sel avail _ h]
  constructor
  · simp
  · rw [List.filter_append]
    have hc : (sel.topics.map
        (fun t => WriterAction.createTopic t ((avail t).getD "") "cdr")).filter
        WriterAction.isWrite = [] := by
      simp [List.filter_eq_nil_iff, WriterAction.isWrite]
    have hw : (((set_filter sel.topics source).filter
          (fun r => sel.inWindow r.timestamp)).map writeAction).filter
        WriterAction.isWrite =
        ((set_filter sel.topics source).filter
          (fun r => sel.inWindow r.timestamp)).map writeAction := by
      rw [List.filter_eq_self]
      intro a ha
      rcases List.mem_map.mp ha with ⟨r, _, rfl⟩
      rfl
    rw [hc, hw, List.nil_append, set_filter, List.filter_filter]
    congr 1
    apply List.filter_congr
    intro a _
    exact Bool.and_comm _ _

/-- Witness for C1 at the spec §8 scenario: selection `{A}`, window
`[2, 6]`, over the ten alternating records. -/
theorem C1_destination_exact_witness :
    (["A"] ≠ ([] : List String) ∧ (0 : ℤ) ≤ 2 ∧ (2 : ℤ) ≤ 6 ∧
      ∀ t ∈ ["A"], availAB t ≠ none) ∧
    ((process_bag ⟨["A"], 2, 6⟩ (okInput availAB (set_filter ["A"] src10))).1.getLast? =
        some Event.success ∧
    (process_bag ⟨["A"], 2, 6⟩ (okInput availAB (set_filter ["A"] src10))).2.filter
        WriterAction.isWrite =
      (src10.filter
        (fun r => (["A"] : List String).contains r.topic &&
          (Selection.mk ["A"] 2 6).inWindow r.timestamp)).map writeAction) :=
  ⟨⟨by decide, by decide, by decide, by decide⟩,
    C1_destination_exact ⟨["A"], 2, 6⟩ availAB src10 (by decide) (by decide) (by decide)
      (by decide)⟩

/-- C2: when the source is exhausted without an error, the engine enqueues
`Progress(100)` after the streaming loop and then `Success`: the event
sequence is non-empty, ends in exactly one terminal event, and the event
just before the terminal `Success` is `Progress(100)` — including when no
records existed. -/
theorem C2_success_tail (sel : Selection) (avail : String → Option String)
    (records : List Record) (h : ∀ t ∈ sel.topics, avail t ≠ none) :
    (process_bag sel (okInput avail records)).1 ≠ [] ∧
    (process_bag sel (okInput avail records)).1.getLast? = some Event.success ∧
    (process_bag sel (okInput avail records)).1.countP Event.isTerminal = 1 ∧
    (process_bag sel (okInput avail records)).1[
      (process_bag sel (okInput avail records)).1.length - 2]? =
        some (Event.progress 100) := by
  rw [process_bag_ok sel avail records h]
  refine ⟨by simp, by simp, ?_, ?_⟩
  · rw [List.countP_append]
    have hl : (records.map (progressEvent sel)).countP Event.isTerminal = 0 := by
      rw [List.countP_eq_zero]
      intro e he
      rcases List.mem_map.mp he with ⟨r, _, rfl⟩
      simp [progressEvent, Event.isTerminal]
    rw [hl]
    rfl
  · have hlen : (records.map (progressEvent sel) ++
        [Event.progress 100, Event.success]).length = records.length + 2 := by
      simp
    rw [hlen]
    have h2 : records.length + 2 - 2 = (records.map (progressEvent sel)).length := by
      simp
    rw [h2, List.getElem?_append_right (Nat.le_refl _)]
    simp

/-- Witness for C2: the empty source with one selected topic. -/
theorem C2_success_tail_witness :
    (∀ t ∈ ["A"], availAB t ≠ none) ∧
    ((process_bag ⟨["A"], 2, 6⟩ (okInput availAB [])).1 ≠ [] ∧
    (process_bag ⟨["A"], 2, 6⟩ (okInput availAB [])).1.getLast? = some Event.success ∧
    (process_bag ⟨["A"], 2, 6⟩ (okInput availAB [])).1.countP Event.isTerminal = 1 ∧
    (process_bag ⟨["A"], 2, 6⟩ (okInput availAB [])).1[
      (process_bag ⟨["A"], 2, 6⟩ (okInput availAB [])).1.length - 2]? =
        some (Event.progress 100)) :=
  ⟨by decide, C2_success_tail ⟨["A"], 2, 6⟩ availAB [] (by decide)⟩

/-- A run over the ten-record source in which `processing` is cleared
externally after 3 iterations (the spec §8 cancellation scenario), with
no injected failures. -/
def cancelAfter3 : RunInput :=
  { readerOpenErr := none
    writerOpenErr := none
    available_topics := availAB
    src := src10.map Except.ok
    wfail := fun _ => none
    alive := fun i => decide (i < 3) }

/-- C3 counterexample: cancellation after 3 of 10 records streamed does
NOT end the run without a terminal event — the engine falls through to
the unconditional `put(100.0); put("SUCCESS")` (filter.py lines 390-393),
so exactly one terminal event is emitted and it is `Success`. -/
theorem C3_cancel_counterexample :
    (process_bag ⟨["A"], 0, 9⟩ cancelAfter3).1.countP Event.isTerminal = 1 ∧
    (process_bag ⟨["A"], 0, 9⟩ cancelAfter3).1.getLast? = some Event.success := by
  decide

/-- The streaming loop under external cancellation: `processing` reads
true for iterations `< k` and false afterwards, so the loop processes
exactly the records before index `k` and raises no exception. -/
theorem runLoop_cancel (sel : Selection) (k : Nat) (records : List Record) (i : Nat) :
    runLoop sel (fun j => decide (j < k)) (fun _ => none) (records.map Except.ok) i =
      ((records.take (k - i)).map (progressEvent sel),
       ((records.take (k - i)).filter (fun r => sel.inWindow r.timestamp)).map writeAction,
       none) := by
  induction records generalizing i with
  | nil => simp [runLoop]
  | cons r rs ih =>
    by_cases hk : i < k
    · have hsub : k - i = (k - (i + 1)) + 1 := by omega
      by_cases hw : sel.inWindow r.timestamp
      · simp [runLoop, hk, hsub, hw, ih (i + 1)]
      · simp [runLoop, hk, hsub, hw, ih (i + 1)]
    · have hsub : k - i = 0 := by omega
      simp [runLoop, hk, hsub]

/-- C3 amended: when `processing` is cleared externally from iteration `k`
onwards, streaming stops at the top of the per-record loop — no record
beyond the first `k` is read or written — but the engine still emits
`Progress(100)` followed by a terminal `Success` event; the run does not
end without a terminal event. -/
theorem C3_cancel_amended (sel : Selection) (avail : String → Option String)
    (records : List Record) (k : Nat) (h : ∀ t ∈ sel.topics, avail t ≠ none) :
    process_bag sel
      { readerOpenErr := none
        writerOpenErr := none
        available_topics := avail
        src := records.map Except.ok
        wfail := fun _ => none
        alive := fun i => decide (i < k) } =
      ((records.take k).map (progressEvent sel) ++ [Event.progress 100, Event.success],
       sel.topics.map (fun t => WriterAction.createTopic t ((avail t).getD "") "cdr")
         ++ ((records.take k).filter (fun r => sel.inWindow r.timestamp)).map writeAction) := by
  have hc := createTopics_ok avail sel.topics h
  have hl := runLoop_cancel sel k records 0
  simp only [Nat.sub_zero] at hl
  simp [process_bag, hc, hl]

/-- Witness for the amended C3: the §8 scenario, cancellation after 3 of
10 records. -/
theorem C3_cancel_amended_witness :
    (∀ t ∈ ["A"], availAB t ≠ none) ∧
    process_bag ⟨["A"], 0, 9⟩ cancelAfter3 =
      ((src10.take 3).map (progressEvent ⟨["A"], 0, 9⟩) ++
        [Event.progress 100, Event.success],
       (["A"] : List String).map
          (fun t => WriterAction.createTopic t ((availAB t).getD "") "cdr")
         ++ ((src10.take 3).filter
            (fun r => (Selection.mk ["A"] 0 9).inWindow r.timestamp)).map writeAction) :=
  ⟨by decide, C3_cancel_amended ⟨["A"], 0, 9⟩ availAB src10 3 (by decide)⟩

/-- A run whose reader yields a single record on topic `"B"` (inside the
time window) while only `"A"` is selected — modelling a storage layer
that does not honour the push-down filter. -/
def unfilteredB : RunInput :=
  { readerOpenErr := none
    writerOpenErr := none
    available_topics := availAB
    src := [Except.ok ⟨"B", [1], 5⟩]
    wfail := fun _ => none
    alive := fun _ => true }

/-- C4 counterexample: the engine does NOT re-check channel membership
before writing.  With selection `{A}` and window `[0, 10]`, a record on
topic `"B"` yielded by the reader is written to the destination even
though `"B"` is not in `selection.channels`: the write guard (filter.py
line 387) tests only the timestamp. -/
theorem C4_recheck_counterexample :
    (["A"] : List String).contains "B" = false ∧
    WriterAction.write "B" [1] 5 ∈ (process_bag ⟨["A"], 0, 10⟩ unfilteredB).2 := by
  decide

/-- C4 amended: the engine re-checks only the time window, never channel
membership: the records written are exactly those the reader yields whose
timestamp lies in `[start_ns, end_ns]`, regardless of channel — so
correctness of the destination DOES depend on the source-side push-down
filter restricting the reader to the selected channels. -/
theorem C4_no_recheck_amended (sel : Selection) (avail : String → Option String)
    (records : List Record) (h : ∀ t ∈ sel.topics, avail t ≠ none) :
    (process_bag sel (okInput avail records)).2.filter WriterAction.isWrite =
      (records.filter (fun r => sel.inWindow r.timestamp)).map writeAction := by
  rw [process_bag_ok sel avail records h, List.filter_append]
  have hc : (sel.topics.map
      (fun t => WriterAction.createTopic t ((avail t).getD "") "cdr")).filter
      WriterAction.isWrite = [] := by
    simp [List.filter_eq_nil_iff, WriterAction.isWrite]
  have hw : ((records.filter (fun r => sel.inWindow r.timestamp)).map writeAction).filter
      WriterAction.isWrite =
      (records.filter (fun r => sel.inWindow r.timestamp)).map writeAction := by
    rw [List.filter_eq_self]
    intro a ha
    rcases List.mem_map.mp ha with ⟨r, _, rfl⟩
    rfl
  rw [hc, hw, List.nil_append]

/-- Witness for the amended C4: the unfiltered single-record stream on
topic `"B"`. -/
theorem C4_no_recheck_amended_witness :
    (∀ t ∈ ["A"], availAB t ≠ none) ∧
    (process_bag ⟨["A"], 0, 10⟩ unfilteredB).2.filter WriterAction.isWrite =
      (([⟨"B", [1], 5⟩] : List Record).filter
        (fun r => (Selection.mk ["A"] 0 10).inWindow r.timestamp)).map writeAction :=
  ⟨by decide, C4_no_recheck_amended ⟨["A"], 0, 10⟩ availAB [⟨"B", [1], 5⟩] (by decide)⟩

/-- C5: whenever any error occurs inside the worker — opening the reader
or writer, declaring a selected channel, reading, or writing — the run
aborts: the queue receives some progress updates, then `Progress(0)`
followed by exactly one terminal event, `Failure(msg)` carrying the
cause; no exception crosses the concurrency boundary. -/
theorem C5_failure_tail (sel : Selection) (inp : RunInput) (msg : String)
    (h : runExc sel inp = some msg) :
    ∃ evs, (∀ e ∈ evs, e.isTerminal = false) ∧
      (process_bag sel inp).1 = evs ++ [Event.progress 0, Event.error msg] ∧
      (process_bag sel inp).1.countP Event.isTerminal = 1 := by
  cases hro : inp.readerOpenErr with
  | some m =>
    simp only [runExc, hro, Option.some_inj] at h
    subst h
    exact ⟨[], by simp, by simp [process_bag, hro],
      by simp [process_bag, hro, List.countP_cons, Event.isTerminal]⟩
  | none =>
    cases hwo : inp.writerOpenErr with
    | some m =>
      simp only [runExc, hro, hwo, Option.some_inj] at h
      subst h
      exact ⟨[], by simp, by simp [process_bag, hro, hwo],
        by simp [process_bag, hro, hwo, List.countP_cons, Event.isTerminal]⟩
    | none =>
      cases hct : createTopics inp.available_topics sel.topics with
      | error m =>
        simp only [runExc, hro, hwo, hct, Option.some_inj] at h
        subst h
        exact ⟨[], by simp, by simp [process_bag, hro, hwo, hct],
          by simp [process_bag, hro, hwo, hct, List.countP_cons, Event.isTerminal]⟩
      | ok creates =>
        simp only [runExc, hro, hwo, hct] at h
        have hnt := runLoop_events_not_terminal sel inp.alive inp.wfail inp.src 0
        refine ⟨(runLoop sel inp.alive inp.wfail inp.src 0).1, hnt, ?_, ?_⟩
        · simp [process_bag, hro, hwo, hct, h]
        · have hz : (runLoop sel inp.alive inp.wfail inp.src 0).1.countP
              Event.isTerminal = 0 := List.countP_eq_zero.mpr (by
            intro e he
            simp [hnt e he])
          simp [process_bag, hro, hwo, hct, h, List.countP_append, hz,
            List.countP_cons, Event.isTerminal]

/-- Witness for C5: a run whose reader fails to open with message
`"IOError: corrupt"`. -/
theorem C5_failure_tail_witness :
    runExc ⟨["A"], 0, 10⟩
      { readerOpenErr := some "IOError: corrupt"
        writerOpenErr := none
        available_topics := availAB
        src := []
        wfail := fun _ => none
        alive := fun _ => true } = some "IOError: corrupt" ∧
    ∃ evs, (∀ e ∈ evs, e.isTerminal = false) ∧
      (process_bag ⟨["A"], 0, 10⟩
        { readerOpenErr := some "IOError: corrupt"
          writerOpenErr := none
          available_topics := availAB
          src := []
          wfail := fun _ => none
          alive := fun _ => true }).1 =
        evs ++ [Event.progress 0, Event.error "IOError: corrupt"] ∧
      (process_bag ⟨["A"], 0, 10⟩
        { readerOpenErr := some "IOError: corrupt"
          writerOpenErr := none
          available_topics := availAB
          src := []
          wfail := fun _ => none
          alive := fun _ => true }).1.countP Event.isTerminal = 1 :=
  ⟨rfl, C5_failure_tail ⟨["A"], 0, 10⟩ _ "IOError: corrupt" rfl⟩

/-- C6: on a failure-free run, the `i`-th enqueued event is the progress
fraction `clamp(((timestamp_ns - start_ns) / total_span) * 100, 0, 100)`
of the `i`-th record when `total_span = end_ns - start_ns` is positive,
and `100` otherwise; and when `total_span = 0` every progress update in
the whole run equals `100`. -/
theorem C6_progress_values (sel : Selection) (avail : String → Option String)
    (records : List Record) (h : ∀ t ∈ sel.topics, avail t ≠ none) :
    (∀ (i : Nat) (r : Record), records[i]? = some r →
      (process_bag sel (okInput avail records)).1[i]? =
        some (Event.progress
          (if sel.end_ns - sel.start_ns > 0 then
            max 0 (min (((r.timestamp - sel.start_ns : ℤ) : ℚ) /
              ((sel.end_ns - sel.start_ns : ℤ) : ℚ) * 100) 100)
          else 100))) ∧
    (sel.end_ns - sel.start_ns = 0 →
      ∀ q : ℚ, Event.progress q ∈ (process_bag sel (okInput avail records)).1 →
        q = 100) := by
  constructor
  · intro i r hir
    have hi : i < records.length := (List.getElem?_eq_some.mp hir).1
    rw [process_bag_ok sel avail records h,
      List.getElem?_append_left (by simpa using hi), List.getElem?_map, hir]
    simp [progressEvent, progressUpdate, Selection.total_duration]
  · intro hz q hq
    rw [process_bag_ok sel avail records h] at hq
    rcases List.mem_append.mp hq with hq | hq
    · rcases List.mem_map.mp hq with ⟨r, _, he⟩
      have hv : progressUpdate sel r.timestamp = q := by
        simpa [progressEvent] using he
      have ht : sel.total_duration = 0 := hz
      rw [← hv]
      simp [progressUpdate, ht]
    · simpa using hq

/-- Witness for C6: selection `{A}` with the degenerate window `[4, 4]`
over the ten alternating records. -/
theorem C6_progress_values_witness :
    (∀ t ∈ ["A"], availAB t ≠ none) ∧
    ((∀ (i : Nat) (r : Record), src10[i]? = some r →
      (process_bag ⟨["A"], 4, 4⟩ (okInput availAB src10)).1[i]? =
        some (Event.progress
          (if (4 : ℤ) - 4 > 0 then
            max 0 (min (((r.timestamp - 4 : ℤ) : ℚ) / (((4 : ℤ) - 4 : ℤ) : ℚ) * 100) 100)
          else 100))) ∧
    ((4 : ℤ) - 4 = 0 →
      ∀ q : ℚ, Event.progress q ∈ (process_bag ⟨["A"], 4, 4⟩ (okInput availAB src10)).1 →
        q = 100)) :=
  ⟨by decide, C6_progress_values ⟨["A"], 4, 4⟩ availAB src10 (by decide)⟩

/-- C7: a run attempt is rejected synchronously — `start_processing`
returns without spawning the worker, so no reader or writer is opened and
no destination content is created — whenever no topics are selected, or
the time bounds are malformed: a negative start, an end earlier than the
start, or an end beyond the log's reported duration. -/
theorem C7_validation_rejects (g : GuiState)
    (h : g.selected_indices = [] ∨
      ∃ s e, g.start_entry = some s ∧ g.end_entry = some e ∧
        (s < 0 ∨ e < s ∨ e > g.duration)) :
    start_processing g = none := by
  have hv : validate_inputs g = false := by
    unfold validate_inputs
    by_cases h1 : g.input_path = ""
    · simp [h1]
    · by_cases h2 : g.output_path = ""
      · simp [h1, h2]
      · by_cases h3 : g.selected_indices = []
        · simp [h1, h2, h3]
        · rcases h with h | ⟨s, e, hs, he, hbad⟩
          · exact absurd h h3
          · simp [h1, h2, h3, hs, he, hbad]
  simp [start_processing, hv]

/-- A GUI state with paths set and parseable times but an empty topic
selection. -/
def noTopicsState : GuiState :=
  { input_path := "in_bag"
    output_path := "out_dir"
    selected_indices := []
    start_entry := some 0
    end_entry := some 1
    duration := 10
    topic_names := ["A", "B"] }

/-- Witness for C7: the empty-selection state is rejected. -/
theorem C7_validation_rejects_witness :
    (noTopicsState.selected_indices = [] ∨
      ∃ s e, noTopicsState.start_entry = some s ∧ noTopicsState.end_entry = some e ∧
        (s < 0 ∨ e < s ∨ e > noTopicsState.duration)) ∧
    start_processing noTopicsState = none :=
  ⟨Or.inl rfl, C7_validation_rejects noTopicsState (Or.inl rfl)⟩

/-- C8: on a run that reaches the streaming phase, the writer receives
the declarations of every selected channel — and only those — each with
its recorded type and the fixed serialization tag `"cdr"`, and all of
them precede every record write: the action sequence is the declaration
list (one per selected topic, in selection order) followed by the write
list. -/
theorem C8_declarations_first (sel : Selection) (avail : String → Option String)
    (records : List Record) (h : ∀ t ∈ sel.topics, avail t ≠ none) :
    (process_bag sel (okInput avail records)).2 =
      sel.topics.map (fun t => WriterAction.createTopic t ((avail t).getD "") "cdr")
        ++ (records.filter (fun r => sel.inWindow r.timestamp)).map writeAction ∧
    (∀ a ∈ sel.topics.map
        (fun t => WriterAction.createTopic t ((avail t).getD "") "cdr"),
      a.isWrite = false) ∧
    (∀ a ∈ (records.filter (fun r => sel.inWindow r.timestamp)).map writeAction,
      a.isWrite = true) := by
  refine ⟨?_, ?_, ?_⟩
  · rw [process_bag_ok sel avail records h]
  · intro a ha
    rcases List.mem_map.mp ha with ⟨t, _, rfl⟩
    rfl
  · intro a ha
    rcases List.mem_map.mp ha with ⟨r, _, rfl⟩
    rfl

/-- Witness for C8: both topics selected over the ten alternating
records, window `[2, 6]`. -/
theorem C8_declarations_first_witness :
    (∀ t ∈ ["A", "B"], availAB t ≠ none) ∧
    ((process_bag ⟨["A", "B"], 2, 6⟩ (okInput availAB src10)).2 =
      (["A", "B"] : List String).map
          (fun t => WriterAction.createTopic t ((availAB t).getD "") "cdr")
        ++ (src10.filter
          (fun r => (Selection.mk ["A", "B"] 2 6).inWindow r.timestamp)).map writeAction ∧
    (∀ a ∈ (["A", "B"] : List String).map
        (fun t => WriterAction.createTopic t ((availAB t).getD "") "cdr"),
      a.isWrite = false) ∧
    (∀ a ∈ (src10.filter
        (fun r => (Selection.mk ["A", "B"] 2 6).inWindow r.timestamp)).map writeAction,
      a.isWrite = true)) :=
  ⟨by decide, C8_declarations_first ⟨["A", "B"], 2, 6⟩ availAB src10 (by decide)⟩

/-- The destination produced by one complete run: the writer actions of
`process_bag` over the push-down-filtered source, with no failures and no
cancellation. -/
def runDestination (sel : Selection) (avail : String → Option String)
    (source : List Record) : List WriterAction :=
  (process_bag sel (okInput avail (set_filter sel.topics source))).2

/-- C9: two runs with the same selection and the same source content
against fresh destinations produce identical destinations — the engine is
a deterministic function of its inputs. -/
theorem C9_idempotent (sel : Selection) (avail : String → Option String)
    (source : List Record) (d1 d2 : List WriterAction)
    (h1 : d1 = runDestination sel avail source)
    (h2 : d2 = runDestination sel avail source) : d1 = d2 :=
  h1.trans h2.symm

/-- Witness for C9: two runs of selection `{A}`, window `[2, 6]` over the
ten alternating records both produce the same concrete destination. -/
theorem C9_idempotent_witness :
    ([WriterAction.createTopic "A" "T1" "cdr", WriterAction.write "A" [2] 2,
        WriterAction.write "A" [4] 4, WriterAction.write "A" [6] 6] =
      runDestination ⟨["A"], 2, 6⟩ availAB src10 ∧
     [WriterAction.createTopic "A" "T1" "cdr", WriterAction.write "A" [2] 2,
        WriterAction.write "A" [4] 4, WriterAction.write "A" [6] 6] =
      runDestination ⟨["A"], 2, 6⟩ availAB src10) ∧
    ([WriterAction.createTopic "A" "T1" "cdr", WriterAction.write "A" [2] 2,
        WriterAction.write "A" [4] 4, WriterAction.write "A" [6] 6] : List WriterAction) =
      [WriterAction.createTopic "A" "T1" "cdr", WriterAction.write "A" [2] 2,
        WriterAction.write "A" [4] 4, WriterAction.write "A" [6] 6] :=
  ⟨⟨by decide, by decide⟩,
    C9_idempotent ⟨["A"], 2, 6⟩ availAB src10 _ _ (by decide) (by decide)⟩

/-- The progress fraction carried by an event, if any. -/
def progressFraction : Event → Option ℚ
  | .progress q => some q
  | .success => none
  | .error _ => none

/-- The clamped affine progress fraction is monotone in the timestamp
when the window span is positive. -/
theorem progressUpdate_mono (sel : Selection) (h : sel.total_duration > 0)
    (t1 t2 : Int) (hle : t1 ≤ t2) :
    progressUpdate sel t1 ≤ progressUpdate sel t2 := by
  unfold progressUpdate
  rw [if_pos h, if_pos h]
  have hT : (0 : ℚ) < ((sel.total_duration : ℤ) : ℚ) := by
    exact_mod_cast h
  refine max_le_max (le_refl 0) (min_le_min ?_ (le_refl 100))
  have hnum : ((t1 - sel.start_ns : ℤ) : ℚ) ≤ ((t2 - sel.start_ns : ℤ) : ℚ) := by
    exact_mod_cast Int.sub_le_sub_right hle sel.start_ns
  exact mul_le_mul_of_nonneg_right ((div_le_div_right hT).mpr hnum) (by norm_num)

/-- Every emitted progress fraction is at most `100`. -/
theorem progressUpdate_le_100 (sel : Selection) (t : Int) :
    progressUpdate sel t ≤ 100 := by
  unfold progressUpdate
  split
  · exact max_le (by norm_num) (min_le_right _ _)
  · exact le_refl 100

/-- Over a timestamp-non-decreasing record list, the per-record fractions
followed by the final `100` form a non-decreasing chain. -/
theorem chain_progress (sel : Selection) (h : sel.total_duration > 0) :
    ∀ records : List Record,
      List.Chain' (fun a b => a.timestamp ≤ b.timestamp) records →
      List.Chain' (· ≤ ·)
        ((records.map (fun r => progressUpdate sel r.timestamp)) ++ [(100 : ℚ)]) := by
  intro records hrec
  induction records with
  | nil => simp
  | cons r rs ih =>
    cases rs with
    | nil =>
      simp only [List.map_cons, List.map_nil, List.nil_append, List.cons_append,
        List.chain'_cons]
      exact ⟨progressUpdate_le_100 sel r.timestamp, by simp⟩
    | cons r2 rs2 =>
      rw [List.chain'_cons] at hrec
      simp only [List.map_cons, List.cons_append, List.chain'_cons]
      have htail := ih hrec.2
      simp only [List.map_cons, List.cons_append] at htail
      exact ⟨progressUpdate_mono sel h r.timestamp r2.timestamp hrec.1, htail⟩

/-- Extracting the progress fractions from the per-record events yields
the per-record fraction list. -/
theorem filterMap_progressEvent (sel : Selection) (records : List Record) :
    (records.map (progressEvent sel)).filterMap progressFraction =
      records.map (fun r => progressUpdate sel r.timestamp) := by
  induction records with
  | nil => rfl
  | cons r rs ih =>
    show progressUpdate sel r.timestamp ::
        (rs.map (progressEvent sel)).filterMap progressFraction =
      progressUpdate sel r.timestamp ::
        rs.map (fun r => progressUpdate sel r.timestamp)
    rw [ih]

/-- C10: on a failure-free run with positive `total_span` over a source
whose timestamps are non-decreasing, the sequence of progress fractions
the engine enqueues (including the final `Progress(100)`) is
non-decreasing, because the per-record fraction is a clamped affine —
hence monotone — function of the record timestamp. -/
theorem C10_progress_monotone (sel : Selection) (avail : String → Option String)
    (records : List Record) (htot : sel.total_duration > 0)
    (hmono : List.Chain' (fun a b => a.timestamp ≤ b.timestamp) records)
    (h : ∀ t ∈ sel.topics, avail t ≠ none) :
    List.Chain' (· ≤ ·)
      ((process_bag sel (okInput avail records)).1.filterMap progressFraction) := by
  rw [process_bag_ok sel avail records h, List.filterMap_append,
    filterMap_progressEvent]
  have h2 : ([Event.progress 100, Event.success].filterMap progressFraction) =
      [(100 : ℚ)] := rfl
  rw [h2]
  exact chain_progress sel htot records hmono

/-- Four records alternating between topics `"A"` and `"B"` with
non-decreasing timestamps, given as a literal list. -/
def src4 : List Record :=
  [⟨"A", [0], 0⟩, ⟨"B", [1], 1⟩, ⟨"A", [2], 2⟩, ⟨"B", [3], 3⟩]

/-- Witness for C10: selection `{A}`, window `[0, 3]`, over four
alternating records with timestamps `0..3`. -/
theorem C10_progress_monotone_witness :
    ((Selection.mk ["A"] 0 3).total_duration > 0 ∧
      List.Chain' (fun a b => a.timestamp ≤ b.timestamp) src4 ∧
      ∀ t ∈ ["A"], availAB t ≠ none) ∧
    List.Chain' (· ≤ ·)
      ((process_bag ⟨["A"], 0, 3⟩ (okInput availAB src4)).1.filterMap
        progressFraction) :=
  ⟨⟨by decide, by simp [src4, List.chain'_cons], by decide⟩,
    C10_progress_monotone ⟨["A"], 0, 3⟩ availAB src4 (by decide)
      (by simp [src4, List.chain'_cons]) (by decide)⟩
